import Mathlib

/-!
Verification development for the Daktela extractor component.

The definitions below are a shallow embedding of the Python sources:
  - src/daktela_client.py  (page-parameter construction, filter fallback, paging)
  - src/transformer.py     (flatten, HTML clean, list explosion, id synthesis)
  - src/extractor.py       (parent-id normalization, dependent loop, phases)

JSON values are modelled by the inductive JValue; Python dicts are modelled
as insertion-ordered association lists with unique keys (JObj), with dict
assignment replacing an existing entry in place and appending otherwise,
exactly as Python dicts behave.
-/

/-- JSON value as produced by the Daktela API (Python loose typing). -/
inductive JValue where
  | null : JValue
  | bool : Bool → JValue
  | num : Int → JValue
  | str : String → JValue
  | arr : List JValue → JValue
  | obj : List (String × JValue) → JValue

/-- A Python dict of JSON values: insertion-ordered association list. -/
abbrev JObj := List (String × JValue)

/-- Python dict assignment d[k] = v: replace the existing entry in place,
otherwise append at the end. -/
def dictInsert : JObj → String → JValue → JObj
  | [], k, v => [(k, v)]
  | (k', v') :: rest, k, v =>
    if k' = k then (k, v) :: rest else (k', v') :: dictInsert rest k v

/-- Python dict lookup d.get(k). -/
def dictGet : JObj → String → Option JValue
  | [], _ => none
  | (k', v) :: rest, k => if k' = k then some v else dictGet rest k

/-- Python membership test k in d. -/
def containsKey : JObj → String → Bool
  | [], _ => false
  | (k', _) :: rest, k => if k' = k then true else containsKey rest k

/-- Python dict comprehension removing one key. -/
def dictRemove : JObj → String → JObj
  | [], _ => []
  | (k', v) :: rest, k =>
    if k' = k then dictRemove rest k else (k', v) :: dictRemove rest k

/-- Python d.update(other): assign every entry of other into d, in order. -/
def dictUpdate (d : JObj) (other : JObj) : JObj :=
  other.foldl (fun acc p => dictInsert acc p.1 p.2) d

/-- Python d.get(k) with default None. -/
def jgetD (d : JObj) (k : String) : JValue :=
  (dictGet d k).getD JValue.null

/-- The keys of a dict are pairwise distinct (always true of a Python dict). -/
def nodupKeys : JObj → Bool
  | [] => true
  | (k, _) :: rest => !containsKey rest k && nodupKeys rest

/-- Python truthiness of a JSON value. -/
def jtruthy : JValue → Bool
  | JValue.null => false
  | JValue.bool b => b
  | JValue.num n => n != 0
  | JValue.str s => s != ""
  | JValue.arr xs => !xs.isEmpty
  | JValue.obj fs => !fs.isEmpty

/-- Python str() of a scalar JSON value; the textual form of nested
containers is abbreviated because only scalar values ever serve as key
fields. -/
def pyStr : JValue → String
  | JValue.null => "None"
  | JValue.bool true => "True"
  | JValue.bool false => "False"
  | JValue.num n => toString n
  | JValue.str s => s
  | JValue.arr _ => "<list>"
  | JValue.obj _ => "<dict>"

/-- Python sep.join(xs). -/
def joinWith (sep : String) : List String → String
  | [] => ""
  | [x] => x
  | x :: rest => x ++ sep ++ joinWith sep rest

/-- Python s.startswith(pre), on the underlying character lists. -/
def pyStartsWith (s pre : String) : Bool := pre.data.isPrefixOf s.data

/-- Python s.endswith(suf). -/
def pyEndsWith (s suf : String) : Bool := suf.data.isSuffixOf s.data

/-- Python s[n:]. -/
def pyDrop (s : String) (n : Nat) : String := String.mk (s.data.drop n)

/-- Python s[:-n]. -/
def pyDropRight (s : String) (n : Nat) : String :=
  String.mk (s.data.take (s.data.length - n))

section DictLemmas

theorem dictGet_dictInsert_self (d : JObj) (k : String) (v : JValue) :
    dictGet (dictInsert d k v) k = some v := by
  induction d with
  | nil => simp [dictInsert, dictGet]
  | cons p rest ih =>
    obtain ⟨k', v'⟩ := p
    by_cases h : k' = k <;> simp [dictInsert, dictGet, h, ih]

theorem dictGet_dictInsert_ne (d : JObj) (k k' : String) (v : JValue)
    (h : k ≠ k') : dictGet (dictInsert d k v) k' = dictGet d k' := by
  induction d with
  | nil => simp [dictInsert, dictGet, h]
  | cons p rest ih =>
    obtain ⟨k₀, v₀⟩ := p
    by_cases h0 : k₀ = k
    · subst h0
      simp [dictInsert, dictGet, h]
    · simp [dictInsert, dictGet, h0, ih]

theorem containsKey_eq_false_iff (d : JObj) (k : String) :
    containsKey d k = false ↔ ∀ p ∈ d, p.1 ≠ k := by
  induction d with
  | nil => simp [containsKey]
  | cons p rest ih =>
    obtain ⟨k₀, v₀⟩ := p
    by_cases h0 : k₀ = k
    · subst h0
      simp [containsKey]
    · simp [containsKey, h0, ih]

theorem dictUpdate_cons (d : JObj) (k : String) (v : JValue) (rest : JObj) :
    dictUpdate d ((k, v) :: rest) = dictUpdate (dictInsert d k v) rest := rfl

theorem dictGet_dictUpdate_of_forall_ne (d : JObj) (other : JObj) (k : String)
    (h : ∀ p ∈ other, p.1 ≠ k) :
    dictGet (dictUpdate d other) k = dictGet d k := by
  induction other generalizing d with
  | nil => simp [dictUpdate]
  | cons p rest ih =>
    obtain ⟨k₀, v₀⟩ := p
    have hk : k₀ ≠ k := h (k₀, v₀) (by simp)
    have hrest : ∀ p ∈ rest, p.1 ≠ k := fun p hp => h p (by simp [hp])
    rw [dictUpdate_cons, ih _ hrest, dictGet_dictInsert_ne _ _ _ _ hk]

theorem dictGet_dictUpdate_of_get (d : JObj) (other : JObj) (k : String)
    (v : JValue) (hnd : nodupKeys other = true) (h : dictGet other k = some v) :
    dictGet (dictUpdate d other) k = some v := by
  induction other generalizing d with
  | nil => simp [dictGet] at h
  | cons p rest ih =>
    obtain ⟨k₀, v₀⟩ := p
    simp only [nodupKeys, Bool.and_eq_true, Bool.not_eq_true'] at hnd
    by_cases h0 : k₀ = k
    · subst h0
      simp [dictGet] at h
      subst h
      have hout : ∀ p ∈ rest, p.1 ≠ k₀ :=
        (containsKey_eq_false_iff rest k₀).mp hnd.1
      rw [dictUpdate_cons, dictGet_dictUpdate_of_forall_ne _ _ _ hout,
        dictGet_dictInsert_self]
    · simp [dictGet, h0] at h
      rw [dictUpdate_cons, ih _ hnd.2 h]

end DictLemmas

/-!
Embedding of src/daktela_client.py: filter-parameter construction for
fetch_table_data_batched, the filterless fallback on the initial count
request, and the page-size / offset computation.
-/

/-- Constant DEFAULT_PAGE_LIMIT from daktela_client.py. -/
def DEFAULT_PAGE_LIMIT : Int := 1000

/-- Constant FILTER_PAGINATED_ENDPOINTS from daktela_client.py. -/
def FILTER_PAGINATED_ENDPOINTS : List String := ["tickets", "contacts"]

/-- Constant ACTIVITIES_FILTER_FIELDS from daktela_client.py. -/
def ACTIVITIES_FILTER_FIELDS : List (String × String) :=
  [("activities", "time"), ("activitiesCall", "call_time"),
   ("activitiesChat", "time"), ("activitiesEmail", "time")]

/-- Python truthiness of an optional string argument (None and the empty
string are both falsy). -/
def optTruthy : Option String → Bool
  | none => false
  | some s => s != ""

/-- The filter field chosen in fetch_table_data_batched: endpoints in
FILTER_PAGINATED_ENDPOINTS use "edited", activities endpoints use their
per-endpoint time field, every other endpoint gets no filter. -/
def filterFieldFor (tableName : String) : Option String :=
  if tableName ∈ FILTER_PAGINATED_ENDPOINTS then some "edited"
  else ACTIVITIES_FILTER_FIELDS.lookup tableName

/-- The filters list built from date_from / date_to (field, operator, value),
mirroring the two `if date_from:` / `if date_to:` appends. -/
def dateFilters (filterField : String) (dateFrom dateTo : Option String) :
    List (String × String × String) :=
  (match dateFrom with
   | some s => if s = "" then [] else [(filterField, "gte", s)]
   | none => []) ++
  (match dateTo with
   | some s => if s = "" then [] else [(filterField, "lte", s)]
   | none => [])

/-- Encoding of the filters list as query parameters: two filters yield the
indexed array form, one filter the simple triplet form, zero filters none. -/
def filterQueryParams (filters : List (String × String × String)) :
    List (String × String) :=
  match filters with
  | [f1, f2] =>
    [("filter[0][field]", f1.1), ("filter[0][operator]", f1.2.1),
     ("filter[0][value]", f1.2.2),
     ("filter[1][field]", f2.1), ("filter[1][operator]", f2.2.1),
     ("filter[1][value]", f2.2.2)]
  | [f] =>
    [("filter[field]", f.1), ("filter[operator]", f.2.1),
     ("filter[value]", f.2.2)]
  | _ => []

/-- The fields query parameter (only added when the fields list is truthy). -/
def fieldsQueryParams (fields : Option (List String)) : List (String × String) :=
  match fields with
  | some fs => if fs.isEmpty then [] else [("fields", joinWith "," fs)]
  | none => []

/-- Query parameters built by fetch_table_data_batched before pagination:
access token, optional fields, and the date filters for supported endpoints. -/
def buildPageParams (accessToken tableName : String)
    (dateFrom dateTo : Option String) (fields : Option (List String)) :
    List (String × String) :=
  let params := [("accessToken", accessToken)] ++ fieldsQueryParams fields
  match filterFieldFor tableName with
  | some filterField =>
    params ++ filterQueryParams (dateFilters filterField dateFrom dateTo)
  | none => params

/-- A query parameter whose key starts with "filter[" (the test used by the
fallback logic in fetch_table_data_batched). -/
def isFilterParam (p : String × String) : Bool := pyStartsWith p.1 "filter["

/-- The params_count dict of the initial total-count request:
params plus skip=0, take=1. -/
def countParams (accessToken tableName : String)
    (dateFrom dateTo : Option String) (fields : Option (List String)) :
    List (String × String) :=
  buildPageParams accessToken tableName dateFrom dateTo fields ++
    [("skip", "0"), ("take", "1")]

/-- The rebuilt filterless params after the API rejects the date filter:
access token plus the preserved fields parameter. -/
def strippedPageParams (accessToken : String) (fields : Option (List String)) :
    List (String × String) :=
  [("accessToken", accessToken)] ++ fieldsQueryParams fields

/-- The rebuilt filterless params_count after the API rejects the date
filter: access token, skip=0, take=1, plus the preserved fields parameter. -/
def strippedCountParams (accessToken : String) (fields : Option (List String)) :
    List (String × String) :=
  [("accessToken", accessToken), ("skip", "0"), ("take", "1")] ++
    fieldsQueryParams fields

/-- The initial count request of fetch_table_data_batched, with the
filterless fallback: the server is a function from query parameters to
either an HTTP error status or a response. On a 400 status for an
activities endpoint whose params carry a filter, the same request is
retried exactly once with all filter parameters stripped; the result pairs
the response with the params used for the remaining page requests. -/
def countProbe {α : Type} (server : List (String × String) → Except Nat α)
    (accessToken tableName : String) (dateFrom dateTo : Option String)
    (fields : Option (List String)) :
    Except Nat (α × List (String × String)) :=
  let params := buildPageParams accessToken tableName dateFrom dateTo fields
  let paramsCount := countParams accessToken tableName dateFrom dateTo fields
  match server paramsCount with
  | Except.ok r => Except.ok (r, params)
  | Except.error status =>
    if status == 400 && (ACTIVITIES_FILTER_FIELDS.lookup tableName).isSome
        && paramsCount.any isFilterParam then
      match server (strippedCountParams accessToken fields) with
      | Except.ok r => Except.ok (r, strippedPageParams accessToken fields)
      | Except.error e => Except.error e
    else Except.error status

/-- Python `batch_size or limit or DEFAULT_PAGE_LIMIT` (zero is falsy). -/
def effectiveBaseLimit (batchSize limit : Int) : Int :=
  if batchSize != 0 then batchSize
  else if limit != 0 then limit
  else DEFAULT_PAGE_LIMIT

/-- Page-size computation of fetch_table_data_batched: a non-positive base
limit raises a UserException, otherwise the base limit is capped at
DEFAULT_PAGE_LIMIT. -/
def computePageLimit (batchSize limit : Int) : Except String Int :=
  let baseLimit := effectiveBaseLimit batchSize limit
  if baseLimit ≤ 0 then Except.error "Batch size must be a positive integer."
  else Except.ok (min baseLimit DEFAULT_PAGE_LIMIT)

/-- Python range(0, total, pageLimit): the skip offsets of the page
requests issued after the count probe. -/
def pageOffsets (total pageLimit : Nat) : List Nat :=
  List.range' 0 ((total + pageLimit - 1) / pageLimit) pageLimit

/-!
Embedding of src/transformer.py: the DataTransformer pipeline. Column-name
sanitization delegates to an external library (keboola header normalizer),
so it is threaded through as an abstract string function.
-/

/-- The _flatten_json loop of transformer.py, carrying the items dict being
built: nested dict values are merged recursively while level < 2, every
other value is assigned to items under parent_key + "_" + key. -/
def flattenInto (data : List (String × JValue)) (parentKey : String)
    (level : Nat) (items : JObj) : JObj :=
  match data with
  | [] => items
  | (key, value) :: rest =>
    let newKey := if parentKey = "" then key else parentKey ++ "_" ++ key
    match value with
    | JValue.obj sub =>
      if level < 2 then
        flattenInto rest parentKey level
          (dictUpdate items (flattenInto sub newKey (level + 1) []))
      else
        flattenInto rest parentKey level (dictInsert items newKey value)
    | v => flattenInto rest parentKey level (dictInsert items newKey v)
termination_by sizeOf data
decreasing_by all_goals (simp_wf <;> omega)

/-- _flatten_json as called by transform_records (parent_key "", level 0). -/
def flattenJson (data : JObj) : JObj := flattenInto data "" 0 []

/-- The scan for the end of a non-greedy HTML tag match "<...>": characters
up to the next ">" may be anything except a newline (the regex dot). -/
def findTagEnd : List Char → Option (List Char)
  | [] => none
  | c :: rest =>
    if c = '>' then some rest
    else if c = '\n' then none
    else findTagEnd rest

theorem findTagEnd_length (cs rem : List Char)
    (h : findTagEnd cs = some rem) : rem.length < cs.length := by
  induction cs generalizing rem with
  | nil => simp [findTagEnd] at h
  | cons c rest ih =>
    by_cases hgt : c = '>'
    · simp [findTagEnd, hgt] at h
      subst h
      simp
    · by_cases hnl : c = '\n'
      · simp [findTagEnd, hgt, hnl] at h
      · simp [findTagEnd, hgt, hnl] at h
        exact Nat.lt_succ_of_lt (ih rem h)

/-- re.sub of the non-greedy pattern matching "<" up to the next ">" with
the empty replacement, scanning left to right. -/
def stripTags : List Char → List Char
  | [] => []
  | c :: rest =>
    if c = '<' then
      match h : findTagEnd rest with
      | some rem => stripTags rem
      | none => c :: stripTags rest
    else c :: stripTags rest
termination_by cs => cs.length
decreasing_by
  · exact Nat.lt_succ_of_lt (findTagEnd_length _ _ h)
  · simp
  · simp

/-- Python whitespace characters relevant to str.isspace (ASCII range). -/
def isPySpace (c : Char) : Bool :=
  c = ' ' || c = '\t' || c = '\n' || c = '\r' || c = '\x0b' || c = '\x0c'

/-- The per-value body of _clean_html: strip tag matches from strings and
replace empty or whitespace-only results with None. -/
def cleanHtmlValue : JValue → JValue
  | JValue.str s =>
    let cleanedValue := String.mk (stripTags s.data)
    if cleanedValue.data.all isPySpace then JValue.null
    else JValue.str cleanedValue
  | v => v

/-- _clean_html: rebuild the dict with every string value cleaned. -/
def cleanHtml (data : JObj) : JObj :=
  data.map (fun p => (p.1, cleanHtmlValue p.2))

/-- One list_columns step of _handle_lists: when the original data holds a
list under the column, every candidate row is multiplied, one copy per list
element carrying that element as the column value; an empty list keeps the
row unchanged. -/
def explodePlainStep (data : JObj) (rows : List JObj) (listCol : String) :
    List JObj :=
  match dictGet data listCol with
  | some (JValue.arr value) =>
    rows.flatMap (fun row =>
      if value.isEmpty then [row]
      else value.map (fun item => dictInsert row listCol item))
  | _ => rows

/-- Building one exploded row for a list_of_dicts_columns element: the
original column is removed and, for a dict element, one column per key
named column + "_" + key is injected. -/
def explodeDictItem (listDictCol : String) (row : JObj) (item : JValue) :
    JObj :=
  let newRow := dictRemove row listDictCol
  match item with
  | JValue.obj fields =>
    fields.foldl (fun r p => dictInsert r (listDictCol ++ "_" ++ p.1) p.2) newRow
  | _ => newRow

/-- One list_of_dicts_columns step of _handle_lists: an empty list yields
one row with the column removed, otherwise one row per element. -/
def explodeDictStep (data : JObj) (rows : List JObj) (listDictCol : String) :
    List JObj :=
  match dictGet data listDictCol with
  | some (JValue.arr value) =>
    rows.flatMap (fun row =>
      if value.isEmpty then [dictRemove row listDictCol]
      else value.map (fun item => explodeDictItem listDictCol row item))
  | _ => rows

/-- _handle_lists: fold the plain-list steps, then the list-of-dicts steps,
each in configured column order, starting from the single input row. -/
def handleLists (listColumns listOfDictsColumns : List String) (data : JObj) :
    List JObj :=
  let rows := listColumns.foldl (explodePlainStep data) [data]
  listOfDictsColumns.foldl (explodeDictStep data) rows

/-- _sanitize_columns: rebuild the dict with every key passed through the
external header normalizer san. -/
def sanitizeColumns (san : String → String) (data : JObj) : JObj :=
  data.foldl (fun acc p => dictInsert acc (san p.1) p.2) []

/-- The id_parts list of _add_output_columns: string forms of the non-null
values of the key columns, in order. -/
def idParts (keyColumns : List String) (data : JObj) : List String :=
  keyColumns.filterMap (fun key =>
    match dictGet data key with
    | some JValue.null => none
    | some v => some (pyStr v)
    | none => none)

/-- _add_output_columns: start a fresh dict with the synthesized id, then
assign every data column into it. -/
def addOutputColumns (primaryKeys secondaryKeys : List String) (data : JObj) :
    JObj :=
  let keyColumns := primaryKeys ++ secondaryKeys
  let output := [("id", JValue.str (joinWith "_" (idParts keyColumns data)))]
  dictUpdate output data

/-- The body of the per-row loop of transform_records: sanitize, add the id
column, and apply the activities special cases (drop rows with a falsy id,
recording the raw name value; rename name to activities_name). The
accumulator pairs the transformed rows with the invalid activity ids. -/
def transformRowStep (san : String → String) (tableName : String)
    (primaryKeys secondaryKeys : List String) (record : JObj)
    (acc : List JObj × List JValue) (row : JObj) : List JObj × List JValue :=
  let sanitized := sanitizeColumns san row
  let finalRow := addOutputColumns primaryKeys secondaryKeys sanitized
  if tableName = "activities" && !jtruthy (jgetD finalRow "id") then
    (acc.1, acc.2 ++
      (match dictGet record "name" with
       | some v => [v]
       | none => []))
  else
    let finalRow2 :=
      if tableName = "activities" && containsKey finalRow "name" then
        match dictGet finalRow "name" with
        | some v => dictInsert (dictRemove finalRow "name") "activities_name" v
        | none => finalRow
      else finalRow
    (acc.1 ++ [finalRow2], acc.2)

/-- transform_records: flatten, clean and explode each record, then run the
per-row loop, accumulating transformed rows and invalid activity ids. -/
def transformRecords (san : String → String) (tableName : String)
    (primaryKeys secondaryKeys listColumns listOfDictsColumns : List String)
    (records : List JObj) : List JObj × List JValue :=
  records.foldl (fun acc record =>
    (handleLists listColumns listOfDictsColumns
        (cleanHtml (flattenJson record))).foldl
      (transformRowStep san tableName primaryKeys secondaryKeys record) acc)
    ([], [])

/-!
Embedding of src/extractor.py: parent-id normalization for dependent
tables, the per-parent-id dependent fetch loop, and the two-batch phase
structure of extract_all.
-/

/-- The table-specific prefixes tried by _normalize_parent_ids: the exact
plural prefix first, then a singular fallback (activities has a fixed
singular alias, names ending in "ies" map to "y", names ending in "s" drop
the "s"). -/
def tableIdPrefixes (parentTable : String) : List String :=
  [parentTable ++ "_"] ++
  (if parentTable = "activities" then ["activity_"]
   else if pyEndsWith parentTable "ies" then [pyDropRight parentTable 3 ++ "y_"]
   else if pyEndsWith parentTable "s" then [pyDropRight parentTable 1 ++ "_"]
   else [])

/-- The inner prefix loop of _normalize_parent_ids: strip the first
matching prefix and stop. -/
def stripFirstMatching : List String → String → String
  | [], pid => pid
  | pre :: rest, pid =>
    if pyStartsWith pid pre then pyDrop pid pre.length
    else stripFirstMatching rest pid

/-- _normalize_parent_ids: first pass strips the server prefix and filters
invalid activity ids (checked with and without the server prefix), second
pass strips the table-specific prefix. -/
def normalizeParentIds (server : String) (invalidActivityIds : List String)
    (parentIds : List String) (parentTable : String) : List String :=
  if parentIds.isEmpty then []
  else
    let serverPre := server ++ "_"
    let strippedIds := parentIds.filterMap (fun pid =>
      let withoutServer :=
        if pyStartsWith pid serverPre then pyDrop pid serverPre.length else pid
      if parentTable = "activities" && !invalidActivityIds.isEmpty &&
          (invalidActivityIds.contains pid ||
           invalidActivityIds.contains withoutServer) then
        none
      else some withoutServer)
    strippedIds.map (stripFirstMatching (tableIdPrefixes parentTable))

/-- Modelled from the claim wording for comparison with the code: per
identifier, (1) strip the run-scoped server prefix when present, (2) for
the activities parent drop identifiers found in the invalid set with or
without the server prefix, (3) strip one table-specific prefix. -/
def normalizeOneSpec (server : String) (invalidActivityIds : List String)
    (parentTable : String) (pid : String) : Option String :=
  let serverPre := server ++ "_"
  let withoutServer :=
    if pyStartsWith pid serverPre then pyDrop pid serverPre.length else pid
  if parentTable = "activities" &&
      (invalidActivityIds.contains pid ||
       invalidActivityIds.contains withoutServer) then
    none
  else some (stripFirstMatching (tableIdPrefixes parentTable) withoutServer)

/-- The per-parent-id fetch loop of _extract_dependent_table: the fetch of
one parent id (an abstract function, since its body lives in the API
client) either returns records, which are transformed when non-empty and
accumulated, or fails, in which case that id is skipped and the loop
continues with the remaining ids. -/
def dependentFetchLoop (fetch : String → Except String (List JObj))
    (transform : List JObj → List JObj) : List String → List JObj
  | [] => []
  | pid :: rest =>
    match fetch pid with
    | Except.ok records =>
      (if records.isEmpty then [] else transform records) ++
        dependentFetchLoop fetch transform rest
    | Except.error _ => dependentFetchLoop fetch transform rest

/-- One observable step of an endpoint extraction task. -/
inductive ExtractEvent where
  | start : String → ExtractEvent
  | complete : String → ExtractEvent
deriving DecidableEq

/-- _is_dependent_table: the table config carries a truthy parent_table. -/
def isDependentTable (configs : List (String × Option String))
    (tableName : String) : Bool :=
  match configs.lookup tableName with
  | some (some parent) => parent != ""
  | _ => false

/-- Trace of one asyncio.gather batch: the event loop starts every task in
order and each extraction task suspends at its first awaited request before
finishing, so all start events precede all completion events of the batch. -/
def batchTrace (tables : List String) : List ExtractEvent :=
  tables.map ExtractEvent.start ++ tables.map ExtractEvent.complete

/-- Trace of extract_all: the first awaited batch holds the parent and
independent tables (no truthy parent_table), the second awaited batch holds
the dependent tables; the second gather is awaited only after the first
returns. -/
def extractAllTrace (configs : List (String × Option String))
    (tables : List String) : List ExtractEvent :=
  batchTrace (tables.filter (fun t => !isDependentTable configs t)) ++
    batchTrace (tables.filter (fun t => isDependentTable configs t))

/-- Index of the first occurrence of an event in a trace. -/
def firstIdx (e : ExtractEvent) : List ExtractEvent → Nat
  | [] => 0
  | x :: rest => if x = e then 0 else firstIdx e rest + 1

/-!
Helper lemmas about filter query parameters.
-/

theorem filter_baseParams (token : String) (fields : Option (List String)) :
    (([("accessToken", token)] ++ fieldsQueryParams fields)).filter
      isFilterParam = [] := by
  rcases fields with _ | fs
  · rfl
  · by_cases h : fs.isEmpty <;>
      simp [fieldsQueryParams, h, List.filter,
        show ∀ v : String, isFilterParam ("accessToken", v) = false from
          fun v => rfl,
        show ∀ v : String, isFilterParam ("fields", v) = false from fun v => rfl]

theorem filter_fieldsQueryParams (fields : Option (List String)) :
    (fieldsQueryParams fields).filter isFilterParam = [] := by
  rcases fields with _ | fs
  · rfl
  · by_cases h : fs.isEmpty <;>
      simp [fieldsQueryParams, h, List.filter,
        show ∀ v : String, isFilterParam ("fields", v) = false from fun v => rfl]

theorem filterQueryParams_all_kept (filters : List (String × String × String)) :
    (filterQueryParams filters).filter isFilterParam =
      filterQueryParams filters := by
  match filters with
  | [] => rfl
  | [f] =>
    simp [filterQueryParams, List.filter,
      show ∀ v : String, isFilterParam ("filter[field]", v) = true from
        fun v => rfl,
      show ∀ v : String, isFilterParam ("filter[operator]", v) = true from
        fun v => rfl,
      show ∀ v : String, isFilterParam ("filter[value]", v) = true from
        fun v => rfl]
  | [f1, f2] =>
    simp [filterQueryParams, List.filter,
      show ∀ v : String, isFilterParam ("filter[0][field]", v) = true from
        fun v => rfl,
      show ∀ v : String, isFilterParam ("filter[0][operator]", v) = true from
        fun v => rfl,
      show ∀ v : String, isFilterParam ("filter[0][value]", v) = true from
        fun v => rfl,
      show ∀ v : String, isFilterParam ("filter[1][field]", v) = true from
        fun v => rfl,
      show ∀ v : String, isFilterParam ("filter[1][operator]", v) = true from
        fun v => rfl,
      show ∀ v : String, isFilterParam ("filter[1][value]", v) = true from
        fun v => rfl]
  | f1 :: f2 :: f3 :: rest => rfl

theorem buildPageParams_filter (token tableName ff : String)
    (dFrom dTo : Option String) (fields : Option (List String))
    (hff : filterFieldFor tableName = some ff) :
    (buildPageParams token tableName dFrom dTo fields).filter isFilterParam =
      filterQueryParams (dateFilters ff dFrom dTo) := by
  simp only [buildPageParams, hff, List.filter_append, filter_fieldsQueryParams,
    List.filter,
    show ∀ v : String, isFilterParam ("accessToken", v) = false from
      fun v => rfl,
    List.append_eq, List.nil_append, filterQueryParams_all_kept]

/-- Claim C1: on a filter-supporting endpoint, the page parameters contain
no filter keys when neither date bound is supplied; exactly the simple
triplet filter[field] / filter[operator] / filter[value] (gte for the lower
bound, lte for the upper bound) when exactly one bound is supplied; and
exactly the six indexed filter[0][...] / filter[1][...] keys, lower bound
with gte first and upper bound with lte second, with no simple-triplet
keys, when both bounds are supplied. -/
theorem c1_filter_encoding (token tableName ff : String)
    (dFrom dTo : Option String) (fields : Option (List String))
    (hff : filterFieldFor tableName = some ff) :
    (optTruthy dFrom = false → optTruthy dTo = false →
      (buildPageParams token tableName dFrom dTo fields).filter
        isFilterParam = [])
    ∧ (∀ v, dFrom = some v → v ≠ "" → optTruthy dTo = false →
      (buildPageParams token tableName dFrom dTo fields).filter isFilterParam =
        [("filter[field]", ff), ("filter[operator]", "gte"),
         ("filter[value]", v)])
    ∧ (∀ w, optTruthy dFrom = false → dTo = some w → w ≠ "" →
      (buildPageParams token tableName dFrom dTo fields).filter isFilterParam =
        [("filter[field]", ff), ("filter[operator]", "lte"),
         ("filter[value]", w)])
    ∧ (∀ v w, dFrom = some v → v ≠ "" → dTo = some w → w ≠ "" →
      (buildPageParams token tableName dFrom dTo fields).filter isFilterParam =
        [("filter[0][field]", ff), ("filter[0][operator]", "gte"),
         ("filter[0][value]", v),
         ("filter[1][field]", ff), ("filter[1][operator]", "lte"),
         ("filter[1][value]", w)]) := by
  refine ⟨?_, ?_, ?_, ?_⟩
  · intro h1 h2
    rw [buildPageParams_filter token tableName ff dFrom dTo fields hff]
    rcases dFrom with _ | v <;> rcases dTo with _ | w <;>
      simp [optTruthy] at h1 h2 <;>
      simp_all [dateFilters, filterQueryParams]
  · intro v hv hvne h2
    rw [buildPageParams_filter token tableName ff dFrom dTo fields hff]
    subst hv
    rcases dTo with _ | w <;> simp [optTruthy] at h2 <;>
      simp_all [dateFilters, filterQueryParams]
  · intro w h1 hw hwne
    rw [buildPageParams_filter token tableName ff dFrom dTo fields hff]
    subst hw
    rcases dFrom with _ | v <;> simp [optTruthy] at h1 <;>
      simp_all [dateFilters, filterQueryParams]
  · intro v w hv hvne hw hwne
    rw [buildPageParams_filter token tableName ff dFrom dTo fields hff]
    subst hv; subst hw
    simp [dateFilters, filterQueryParams, hvne, hwne]

/-- Witness for C1 at concrete inputs: the tickets endpoint with both
bounds yields exactly the indexed encoding, with one bound the simple
triplet, with no bounds no filter keys. -/
theorem c1_filter_encoding_witness :
    ((buildPageParams "tok" "tickets" (some "2024-01-01") (some "2024-02-01")
        none).filter isFilterParam =
      [("filter[0][field]", "edited"), ("filter[0][operator]", "gte"),
       ("filter[0][value]", "2024-01-01"),
       ("filter[1][field]", "edited"), ("filter[1][operator]", "lte"),
       ("filter[1][value]", "2024-02-01")])
    ∧ ((buildPageParams "tok" "tickets" (some "2024-01-01") none
        none).filter isFilterParam =
      [("filter[field]", "edited"), ("filter[operator]", "gte"),
       ("filter[value]", "2024-01-01")])
    ∧ ((buildPageParams "tok" "tickets" none none none).filter
        isFilterParam = []) :=
  ⟨(c1_filter_encoding "tok" "tickets" "edited" (some "2024-01-01")
      (some "2024-02-01") none rfl).2.2.2 "2024-01-01" "2024-02-01" rfl
      (by decide) rfl (by decide),
   (c1_filter_encoding "tok" "tickets" "edited" (some "2024-01-01") none
      none rfl).2.1 "2024-01-01" rfl (by decide) rfl,
   (c1_filter_encoding "tok" "tickets" "edited" none none none rfl).1
      rfl rfl⟩

theorem filter_strippedCountParams (token : String)
    (fields : Option (List String)) :
    (strippedCountParams token fields).filter isFilterParam = [] := by
  simp only [strippedCountParams, List.filter_append, filter_fieldsQueryParams,
    List.filter,
    show ∀ v : String, isFilterParam ("accessToken", v) = false from
      fun v => rfl,
    show isFilterParam ("skip", "0") = false from rfl,
    show isFilterParam ("take", "1") = false from rfl,
    List.append_eq, List.nil_append]

theorem filter_strippedPageParams (token : String)
    (fields : Option (List String)) :
    (strippedPageParams token fields).filter isFilterParam = [] := by
  simp only [strippedPageParams, List.filter_append, filter_fieldsQueryParams,
    List.filter,
    show ∀ v : String, isFilterParam ("accessToken", v) = false from
      fun v => rfl,
    List.append_eq, List.nil_append]

/-- Claim C5: when the count request of a filter-carrying sequence on an
activities-family endpoint is rejected with status 400, the fetcher retries
that request exactly once with every filter parameter stripped (the result
is whatever the single filterless retry returns, so a successful retry is
not surfaced as an error, and a failing retry propagates without any
further fallback); the stripped parameters contain no filter keys but keep
the field-selection parameter. -/
theorem c5_filter_fallback {α : Type}
    (server : List (String × String) → Except Nat α)
    (token tableName : String) (dFrom dTo : Option String)
    (fields : Option (List String))
    (hact : (ACTIVITIES_FILTER_FIELDS.lookup tableName).isSome = true)
    (hfilters : (countParams token tableName dFrom dTo fields).any
      isFilterParam = true)
    (herr : server (countParams token tableName dFrom dTo fields) =
      Except.error 400) :
    (countProbe server token tableName dFrom dTo fields =
      match server (strippedCountParams token fields) with
      | Except.ok r => Except.ok (r, strippedPageParams token fields)
      | Except.error e => Except.error e)
    ∧ (strippedCountParams token fields).filter isFilterParam = []
    ∧ (strippedPageParams token fields).filter isFilterParam = []
    ∧ (∀ fs, fields = some fs → fs.isEmpty = false →
        ("fields", joinWith "," fs) ∈ strippedCountParams token fields
        ∧ ("fields", joinWith "," fs) ∈ strippedPageParams token fields) := by
  refine ⟨?_, filter_strippedCountParams token fields,
    filter_strippedPageParams token fields, ?_⟩
  · simp only [countProbe, herr, hact, hfilters]
    simp
  · intro fs hfs hne
    subst hfs
    simp [strippedCountParams, strippedPageParams, fieldsQueryParams, hne]

/-- A server that rejects any request carrying filter parameters with
status 400 and otherwise answers successfully. -/
def filterRejectingServer : List (String × String) → Except Nat Nat :=
  fun ps => if ps.any isFilterParam then Except.error 400 else Except.ok 0

/-- Witness for C5: against a server rejecting filtered requests, the
count probe for the activities endpoint with a date filter succeeds via
the single filterless retry. -/
theorem c5_filter_fallback_witness :
    countProbe filterRejectingServer "tok" "activities" (some "2024-01-01")
      none (some ["name"]) =
      Except.ok (0, strippedPageParams "tok" (some ["name"])) := by
  have h := (c5_filter_fallback filterRejectingServer "tok" "activities"
    (some "2024-01-01") none (some ["name"]) rfl (by decide) rfl).1
  rw [h]
  rfl

/-- Counterexample to C10 as stated: a call with batch size 0, a
non-positive value, does not raise the user-facing error; the code falls
back to the limit argument (default 1000) because Python treats 0 as falsy
in `batch_size or limit or DEFAULT_PAGE_LIMIT`. -/
theorem c10_page_size_counterexample :
    computePageLimit 0 1000 = Except.ok 1000 ∧ ¬ ((0 : Int) > 0) := by
  constructor
  · rfl
  · decide

theorem pageOffsets_mem (total p : Nat) (hp : 0 < p) (o : Nat) :
    o ∈ pageOffsets total p ↔ ∃ k, o = k * p ∧ o < total := by
  unfold pageOffsets
  rw [List.mem_range']
  constructor
  · rintro ⟨i, hi, rfl⟩
    refine ⟨i, by ring, ?_⟩
    have hmul : (i + 1) * p ≤ total + p - 1 :=
      (Nat.le_div_iff_mul_le hp).mp hi
    have hexp : (i + 1) * p = i * p + p := by ring
    rw [hexp] at hmul
    rw [Nat.zero_add, mul_comm p i]
    generalize i * p = A at hmul ⊢
    omega
  · rintro ⟨k, rfl, hk⟩
    refine ⟨k, ?_, by rw [Nat.zero_add, mul_comm p k]⟩
    apply (Nat.le_div_iff_mul_le hp).mpr
    have hexp : (k + 1) * p = k * p + p := by ring
    rw [hexp]
    generalize k * p = A at hk ⊢
    omega

/-- Claim C10, amended: a positive batch size yields page size
min(batch, 1000), silently capped; a negative batch size raises the
user-facing error; a batch size of zero does not raise but falls back to
the limit argument (raising only when that fallback is negative, and
defaulting to 1000 when both are zero); pages are requested at skip
offsets 0, p, 2p, ... strictly below the reported total. -/
theorem c10_page_size_amended :
    (∀ b l : Int, 0 < b →
      computePageLimit b l = Except.ok (min b DEFAULT_PAGE_LIMIT))
    ∧ (∀ b l : Int, b < 0 →
      computePageLimit b l =
        Except.error "Batch size must be a positive integer.")
    ∧ (∀ l : Int, 0 < l →
      computePageLimit 0 l = Except.ok (min l DEFAULT_PAGE_LIMIT))
    ∧ (∀ l : Int, l < 0 →
      computePageLimit 0 l =
        Except.error "Batch size must be a positive integer.")
    ∧ (computePageLimit 0 0 = Except.ok DEFAULT_PAGE_LIMIT)
    ∧ (∀ total p : Nat, 0 < p → ∀ o : Nat,
        o ∈ pageOffsets total p ↔ ∃ k, o = k * p ∧ o < total) := by
  refine ⟨?_, ?_, ?_, ?_, ?_, fun total p hp o => pageOffsets_mem total p hp o⟩
  · intro b l hb
    have hne : (b != 0) = true := by simp [bne_iff_ne]; omega
    have hle : ¬ (b ≤ 0) := by omega
    simp [computePageLimit, effectiveBaseLimit, hne, hle]
  · intro b l hb
    have hne : (b != 0) = true := by simp [bne_iff_ne]; omega
    have hle : b ≤ 0 := by omega
    simp [computePageLimit, effectiveBaseLimit, hne, hle]
  · intro l hl
    have hne : (l != 0) = true := by simp [bne_iff_ne]; omega
    have hle : ¬ (l ≤ 0) := by omega
    simp [computePageLimit, effectiveBaseLimit, hne, hle]
  · intro l hl
    have hne : (l != 0) = true := by simp [bne_iff_ne]; omega
    have hle : l ≤ 0 := by omega
    simp [computePageLimit, effectiveBaseLimit, hne, hle]
  · rfl

/-- Witness for C10 amended: an oversized batch is capped to 1000, a small
one is kept, a negative one raises, and the offsets of a 2500-record table
at page size 1000 contain 2000 but not 3000. -/
theorem c10_page_size_amended_witness :
    computePageLimit 5000 1000 = Except.ok 1000
    ∧ computePageLimit 500 1000 = Except.ok 500
    ∧ computePageLimit (-3) 1000 =
        Except.error "Batch size must be a positive integer."
    ∧ (2000 : Nat) ∈ pageOffsets 2500 1000
    ∧ ¬ (3000 : Nat) ∈ pageOffsets 2500 1000 := by
  have h := c10_page_size_amended
  refine ⟨?_, ?_, h.2.1 (-3) 1000 (by decide), ?_, ?_⟩
  · have := h.1 5000 1000 (by decide)
    simpa using this
  · have := h.1 500 1000 (by decide)
    simpa using this
  · exact (h.2.2.2.2.2 2500 1000 (by decide) 2000).mpr ⟨2, rfl, by decide⟩
  · intro hmem
    obtain ⟨k, hk, hlt⟩ := (h.2.2.2.2.2 2500 1000 (by decide) 3000).mp hmem
    omega

theorem normalizeOneSpec_eq (server parentTable : String)
    (invalid : List String) (pid : String) :
    ((if parentTable = "activities" && !invalid.isEmpty &&
          (invalid.contains pid ||
           invalid.contains (if pyStartsWith pid (server ++ "_")
             then pyDrop pid (server ++ "_").length else pid)) then
        none
      else some (if pyStartsWith pid (server ++ "_")
        then pyDrop pid (server ++ "_").length else pid)).map
      (stripFirstMatching (tableIdPrefixes parentTable)))
    = normalizeOneSpec server invalid parentTable pid := by
  rcases invalid with _ | ⟨i, is⟩
  · simp [normalizeOneSpec]
  · simp only [normalizeOneSpec, List.isEmpty_cons, Bool.not_false,
      Bool.and_true, Bool.true_and]
    split <;> split <;> simp_all

/-- Claim C6: normalization of raw parent identifiers equals, identifier by
identifier, (1) stripping the server prefix when present, (2) for the
activities parent dropping identifiers found in the invalid set with or
without the server prefix, (3) stripping one table-specific prefix, exact
plural first then the pluralization-aware fallback (activities also tries
the singular alias activity_, names ending in ies try the y_ form, names
ending in s drop the s); in particular tickets_TCK-5 for parent tickets
normalizes to TCK-5 and invalid activity identifiers are excluded. -/
theorem c6_normalize_parent_ids (server parentTable : String)
    (invalid pids : List String) :
    (normalizeParentIds server invalid pids parentTable =
      pids.filterMap (normalizeOneSpec server invalid parentTable))
    ∧ tableIdPrefixes "tickets" = ["tickets_", "ticket_"]
    ∧ tableIdPrefixes "activities" = ["activities_", "activity_"]
    ∧ tableIdPrefixes "companies" = ["companies_", "company_"]
    ∧ normalizeParentIds "daktela" [] ["tickets_TCK-5"] "tickets" = ["TCK-5"]
    ∧ normalizeParentIds "daktela" ["act1"] ["daktela_act1", "daktela_act2"]
        "activities" = ["act2"] := by
  refine ⟨?_, by decide, by decide, by decide, by decide, by decide⟩
  by_cases hemp : pids.isEmpty
  · have hnil : pids = [] := by
      cases pids
      · rfl
      · simp at hemp
    subst hnil
    simp [normalizeParentIds]
  · have hemp2 : pids.isEmpty = false := by simpa using hemp
    simp only [normalizeParentIds, hemp2, Bool.false_eq_true, if_false]
    rw [List.map_filterMap]
    congr 1
    funext pid
    exact normalizeOneSpec_eq server parentTable invalid pid

/-!
Flatness predicates and lemmas for the flatten step (claim C2).
-/

def nonObjVal : JValue → Bool
  | JValue.obj _ => false
  | _ => true

def isFlatRow (d : JObj) : Bool := d.all (fun p => nonObjVal p.2)

def depthLe2Val : JValue → Bool
  | JValue.obj sub => isFlatRow sub
  | _ => true

theorem isFlatRow_cons (k : String) (v : JValue) (rest : JObj) :
    isFlatRow ((k, v) :: rest) = (nonObjVal v && isFlatRow rest) := rfl

theorem isFlatRow_dictInsert (d : JObj) (k : String) (v : JValue)
    (hd : isFlatRow d = true) (hv : nonObjVal v = true) :
    isFlatRow (dictInsert d k v) = true := by
  induction d with
  | nil => simp [dictInsert, isFlatRow_cons, hv, isFlatRow]
  | cons p rest ih =>
    obtain ⟨k0, v0⟩ := p
    rw [isFlatRow_cons, Bool.and_eq_true] at hd
    simp only [dictInsert]
    by_cases h0 : k0 = k
    · rw [if_pos h0, isFlatRow_cons]
      simp [hv, hd.2]
    · rw [if_neg h0, isFlatRow_cons]
      simp [hd.1, ih hd.2]

theorem isFlatRow_dictUpdate (d other : JObj)
    (hd : isFlatRow d = true) (ho : isFlatRow other = true) :
    isFlatRow (dictUpdate d other) = true := by
  induction other generalizing d with
  | nil => simpa [dictUpdate]
  | cons p rest ih =>
    obtain ⟨k0, v0⟩ := p
    rw [isFlatRow_cons, Bool.and_eq_true] at ho
    rw [dictUpdate_cons]
    exact ih (dictInsert d k0 v0) (isFlatRow_dictInsert d k0 v0 hd ho.1) ho.2

theorem flattenInto_flat_of_nonObj (data : JObj) (parent : String)
    (level : Nat) (items : JObj)
    (hdata : data.all (fun p => nonObjVal p.2) = true)
    (hitems : isFlatRow items = true) :
    isFlatRow (flattenInto data parent level items) = true := by
  induction data generalizing items with
  | nil => simpa [flattenInto]
  | cons p rest ih =>
    obtain ⟨k, v⟩ := p
    simp only [List.all_cons, Bool.and_eq_true] at hdata
    cases v with
    | obj sub => simp [nonObjVal] at hdata
    | null =>
      simp only [flattenInto]
      exact ih _ hdata.2 (isFlatRow_dictInsert _ _ _ hitems rfl)
    | bool b =>
      simp only [flattenInto]
      exact ih _ hdata.2 (isFlatRow_dictInsert _ _ _ hitems rfl)
    | num n =>
      simp only [flattenInto]
      exact ih _ hdata.2 (isFlatRow_dictInsert _ _ _ hitems rfl)
    | str t =>
      simp only [flattenInto]
      exact ih _ hdata.2 (isFlatRow_dictInsert _ _ _ hitems rfl)
    | arr xs =>
      simp only [flattenInto]
      exact ih _ hdata.2 (isFlatRow_dictInsert _ _ _ hitems rfl)

theorem flattenInto_flat_of_depthLe2 (data : JObj) (parent : String)
    (items : JObj) (hdata : data.all (fun p => depthLe2Val p.2) = true)
    (hitems : isFlatRow items = true) :
    isFlatRow (flattenInto data parent 0 items) = true := by
  induction data generalizing parent items with
  | nil => simpa [flattenInto]
  | cons p rest ih =>
    obtain ⟨k, v⟩ := p
    simp only [List.all_cons, Bool.and_eq_true] at hdata
    cases v with
    | obj sub =>
      simp only [flattenInto]
      have hsub : isFlatRow (flattenInto sub
          (if parent = "" then k else parent ++ "_" ++ k) 1 []) = true :=
        flattenInto_flat_of_nonObj sub _ 1 [] hdata.1 rfl
      exact ih _ _ hdata.2 (isFlatRow_dictUpdate items _ hitems hsub)
    | null =>
      simp only [flattenInto]
      exact ih _ _ hdata.2 (isFlatRow_dictInsert _ _ _ hitems rfl)
    | bool b =>
      simp only [flattenInto]
      exact ih _ _ hdata.2 (isFlatRow_dictInsert _ _ _ hitems rfl)
    | num n =>
      simp only [flattenInto]
      exact ih _ _ hdata.2 (isFlatRow_dictInsert _ _ _ hitems rfl)
    | str t =>
      simp only [flattenInto]
      exact ih _ _ hdata.2 (isFlatRow_dictInsert _ _ _ hitems rfl)
    | arr xs =>
      simp only [flattenInto]
      exact ih _ _ hdata.2 (isFlatRow_dictInsert _ _ _ hitems rfl)
/-- Claim C2: flattening merges nested-object values into the parent
mapping under parent + "_" + child keys with a depth cap of 2: the spec
example flattens fully, an object reached at recursion level 2 (the third
nesting level of the record) is kept unflattened under its composite key,
and every record whose values nest at most two object levels flattens to a
fully flat row. -/
theorem c2_flatten (sub : JObj) (data : JObj)
    (hdata : data.all (fun p => depthLe2Val p.2) = true) :
    (flattenJson [("a", JValue.obj [("b", JValue.num 1),
        ("c", JValue.obj [("d", JValue.num 2)])])] =
      [("a_b", JValue.num 1), ("a_c_d", JValue.num 2)])
    ∧ (flattenJson
        [("a", JValue.obj [("b", JValue.obj [("c", JValue.obj sub)])])] =
      [("a_b_c", JValue.obj sub)])
    ∧ isFlatRow (flattenJson data) = true := by
  refine ⟨?_, ?_, flattenInto_flat_of_depthLe2 data "" [] hdata rfl⟩
  · simp [flattenJson, flattenInto, dictUpdate, dictInsert]
  · simp [flattenJson, flattenInto, dictUpdate, dictInsert]

/-- Witness for C2 at a concrete record of nesting depth 2: the hypothesis
holds and the flattened output is fully flat. -/
theorem c2_flatten_witness :
    (([("u", JValue.obj [("v", JValue.num 7)]), ("w", JValue.str "x")] :
        JObj).all (fun p => depthLe2Val p.2) = true)
    ∧ isFlatRow (flattenJson
        [("u", JValue.obj [("v", JValue.num 7)]), ("w", JValue.str "x")]) =
      true :=
  ⟨rfl, (c2_flatten [("x", JValue.num 3)]
      [("u", JValue.obj [("v", JValue.num 7)]), ("w", JValue.str "x")]
      rfl).2.2⟩

theorem containsKey_dictRemove_self (d : JObj) (k : String) :
    containsKey (dictRemove d k) k = false := by
  induction d with
  | nil => rfl
  | cons p rest ih =>
    obtain ⟨k0, v0⟩ := p
    by_cases h0 : k0 = k
    · simp [dictRemove, h0, ih]
    · simp [dictRemove, containsKey, h0, ih]

theorem containsKey_dictInsert_ne (d : JObj) (k k0 : String) (v : JValue)
    (h : k ≠ k0) : containsKey (dictInsert d k v) k0 = containsKey d k0 := by
  induction d with
  | nil => simp [dictInsert, containsKey, h]
  | cons p rest ih =>
    obtain ⟨k1, v1⟩ := p
    by_cases h1 : k1 = k
    · subst h1
      simp [dictInsert, containsKey, h]
    · simp [dictInsert, containsKey, h1, ih]

theorem underscore_key_ne (c k : String) : c ++ "_" ++ k ≠ c := by
  intro h
  have hl := congrArg String.length h
  rw [String.length_append, String.length_append] at hl
  have h1 : ("_" : String).length = 1 := rfl
  omega

theorem explodeDictItem_removes_col (c : String) (row : JObj) (item : JValue) :
    containsKey (explodeDictItem c row item) c = false := by
  cases item with
  | obj fields =>
    simp only [explodeDictItem]
    have base := containsKey_dictRemove_self row c
    generalize dictRemove row c = d0 at base
    induction fields generalizing d0 with
    | nil => simpa using base
    | cons p rest ih =>
      simp only [List.foldl_cons]
      exact ih _ (by
        rw [containsKey_dictInsert_ne _ _ _ _ (underscore_key_ne c p.1)]
        exact base)
  | null => exact containsKey_dictRemove_self row c
  | bool b => exact containsKey_dictRemove_self row c
  | num n => exact containsKey_dictRemove_self row c
  | str t => exact containsKey_dictRemove_self row c
  | arr xs => exact containsKey_dictRemove_self row c

/-- Claim C4: list explosion multiplies the candidate rows column by
column: a plain-list column present with a non-empty list value turns each
row into one copy per element carrying that element as the column value, an
empty list leaves the row unchanged, two list columns yield the full cross
product, a list-of-objects column removes the original column and injects
one column per object key named column + "_" + key (one row per element,
and exactly one column-less row for an empty list). -/
theorem c4_explode_lists :
    (∀ (data : JObj) (c : String) (xs : List JValue),
      dictGet data c = some (JValue.arr xs) → xs ≠ [] →
      handleLists [c] [] data = xs.map (fun item => dictInsert data c item))
    ∧ (∀ (data : JObj) (c : String),
      dictGet data c = some (JValue.arr []) → handleLists [c] [] data = [data])
    ∧ (∀ (data : JObj) (c1 c2 : String) (xs ys : List JValue),
      dictGet data c1 = some (JValue.arr xs) →
      dictGet data c2 = some (JValue.arr ys) → xs ≠ [] → ys ≠ [] →
      handleLists [c1, c2] [] data =
        xs.flatMap (fun x => ys.map (fun y =>
          dictInsert (dictInsert data c1 x) c2 y)))
    ∧ (∀ (data : JObj) (c : String) (xs : List JValue),
      dictGet data c = some (JValue.arr xs) → xs ≠ [] →
      handleLists [] [c] data = xs.map (explodeDictItem c data))
    ∧ (∀ (data : JObj) (c : String),
      dictGet data c = some (JValue.arr []) →
      handleLists [] [c] data = [dictRemove data c])
    ∧ (∀ (c : String) (row : JObj) (k : String) (v : JValue),
      dictGet (explodeDictItem c row (JValue.obj [(k, v)])) (c ++ "_" ++ k) =
        some v)
    ∧ (∀ (c : String) (row : JObj) (item : JValue),
      containsKey (explodeDictItem c row item) c = false) := by
  refine ⟨?_, ?_, ?_, ?_, ?_, ?_, explodeDictItem_removes_col⟩
  · intro data c xs hget hne
    have hne2 : xs.isEmpty = false := by
      cases xs
      · simp at hne
      · rfl
    simp [handleLists, explodePlainStep, hget, hne2]
  · intro data c hget
    simp [handleLists, explodePlainStep, hget]
  · intro data c1 c2 xs ys h1 h2 hne1 hne2
    have hne1b : xs.isEmpty = false := by
      cases xs
      · simp at hne1
      · rfl
    have hne2b : ys.isEmpty = false := by
      cases ys
      · simp at hne2
      · rfl
    simp [handleLists, explodePlainStep, h1, h2, hne1b, hne2b,
      List.flatMap_map]
  · intro data c xs hget hne
    have hne2 : xs.isEmpty = false := by
      cases xs
      · simp at hne
      · rfl
    simp [handleLists, explodeDictStep, hget, hne2]
  · intro data c hget
    simp [handleLists, explodeDictStep, hget]
  · intro c row k v
    simp only [explodeDictItem, List.foldl_cons, List.foldl_nil]
    exact dictGet_dictInsert_self _ _ _

/-- Witness for C4 at concrete inputs: a two-element tag list doubles the
row, and an empty list-of-dicts column yields one row with the column
removed. -/
theorem c4_explode_lists_witness :
    handleLists ["tag"] []
      [("tag", JValue.arr [JValue.str "x", JValue.str "y"]),
       ("a", JValue.num 1)] =
      [[("tag", JValue.str "x"), ("a", JValue.num 1)],
       [("tag", JValue.str "y"), ("a", JValue.num 1)]]
    ∧ handleLists [] ["items"]
      [("items", JValue.arr []), ("a", JValue.num 1)] =
      [[("a", JValue.num 1)]] := by
  have h := c4_explode_lists
  constructor
  · rw [h.1 [("tag", JValue.arr [JValue.str "x", JValue.str "y"]),
        ("a", JValue.num 1)] "tag" [JValue.str "x", JValue.str "y"] rfl
        (by simp)]
    rfl
  · rw [h.2.2.2.2.1 [("items", JValue.arr []), ("a", JValue.num 1)]
        "items" rfl]
    rfl

/-- Counterexample to C3 as stated: when the sanitized row itself carries
an id column, the final assignment loop of _add_output_columns overwrites
the synthesized identifier, so the output id is the row value "X" although
the underscore-join of the key-field values is the empty string. -/
theorem c3_id_counterexample :
    dictGet (addOutputColumns ["name"] [] [("id", JValue.str "X")]) "id" =
      some (JValue.str "X")
    ∧ idParts (["name"] ++ []) [("id", JValue.str "X")] = []
    ∧ joinWith "_" [] = ""
    ∧ ("X" : String) ≠ "" := by
  refine ⟨rfl, rfl, rfl, by decide⟩

/-- Claim C3, amended: for every row that does not itself contain an id
column, the output id equals the underscore-joined string forms of the key
field values (primary then secondary, skipping absent or null values,
empty join when none), the id is never null, and every data column,
including the key fields, survives unchanged; rows carrying their own id
column instead keep that value (see the counterexample). The concrete
conjuncts check the spec examples for key synthesis. -/
theorem c3_id_amended (primaryKeys secondaryKeys : List String) (data : JObj)
    (hid : containsKey data "id" = false) (hnd : nodupKeys data = true) :
    (dictGet (addOutputColumns primaryKeys secondaryKeys data) "id" =
      some (JValue.str (joinWith "_"
        (idParts (primaryKeys ++ secondaryKeys) data))))
    ∧ (∀ k v, k ≠ "id" → dictGet data k = some v →
        dictGet (addOutputColumns primaryKeys secondaryKeys data) k = some v)
    ∧ dictGet (addOutputColumns primaryKeys secondaryKeys data) "id" ≠
        some JValue.null
    ∧ dictGet (addOutputColumns ["a", "b"] []
        [("a", JValue.str "1"), ("b", JValue.str "2")]) "id" =
      some (JValue.str "1_2")
    ∧ dictGet (addOutputColumns ["a", "b"] [] [("b", JValue.str "2")]) "id" =
      some (JValue.str "2")
    ∧ dictGet (addOutputColumns ["a", "b"] [] ([] : JObj)) "id" =
      some (JValue.str "") := by
  have hne : ∀ p ∈ data, p.1 ≠ "id" := (containsKey_eq_false_iff data "id").mp hid
  have hmain : dictGet (addOutputColumns primaryKeys secondaryKeys data) "id" =
      some (JValue.str (joinWith "_"
        (idParts (primaryKeys ++ secondaryKeys) data))) := by
    unfold addOutputColumns
    rw [dictGet_dictUpdate_of_forall_ne _ _ _ hne]
    rfl
  refine ⟨hmain, ?_, ?_, rfl, rfl, rfl⟩
  · intro k v hk hget
    unfold addOutputColumns
    exact dictGet_dictUpdate_of_get _ _ _ _ hnd hget
  · rw [hmain]
    simp

/-- Witness for C3 amended at a concrete row without an id column. -/
theorem c3_id_amended_witness :
    dictGet (addOutputColumns ["name"] []
      [("name", JValue.str "N"), ("x", JValue.num 1)]) "id" =
      some (JValue.str "N")
    ∧ dictGet (addOutputColumns ["name"] []
      [("name", JValue.str "N"), ("x", JValue.num 1)]) "name" =
      some (JValue.str "N") := by
  have h := c3_id_amended ["name"] []
    [("name", JValue.str "N"), ("x", JValue.num 1)] rfl rfl
  refine ⟨?_, h.2.1 "name" (JValue.str "N") (by decide) rfl⟩
  rw [h.1]
  rfl

/-!
Characterization of transform_records on the activities endpoint (claim C7).
-/

def keptOfRow (san : String → String) (pk sk : List String) (row : JObj) :
    Option JObj :=
  let finalRow := addOutputColumns pk sk (sanitizeColumns san row)
  if jtruthy (jgetD finalRow "id") then
    some (if containsKey finalRow "name" then
      match dictGet finalRow "name" with
      | some v => dictInsert (dictRemove finalRow "name") "activities_name" v
      | none => finalRow
    else finalRow)
  else none

def invalidOfRow (san : String → String) (pk sk : List String)
    (record row : JObj) : Option JValue :=
  if jtruthy (jgetD (addOutputColumns pk sk (sanitizeColumns san row)) "id")
  then none
  else dictGet record "name"

theorem foldl_transformRowStep (san : String → String) (pk sk : List String)
    (record : JObj) (rows : List JObj) (acc : List JObj × List JValue) :
    rows.foldl (transformRowStep san "activities" pk sk record) acc =
      (acc.1 ++ rows.filterMap (keptOfRow san pk sk),
       acc.2 ++ rows.filterMap (invalidOfRow san pk sk record)) := by
  induction rows generalizing acc with
  | nil => simp
  | cons row rest ih =>
    rw [List.foldl_cons, ih]
    by_cases htr : jtruthy (jgetD
      (addOutputColumns pk sk (sanitizeColumns san row)) "id") = true
    · simp only [transformRowStep, keptOfRow, invalidOfRow, htr,
        List.filterMap_cons]
      simp [List.append_assoc]
    · have htr2 : jtruthy (jgetD
          (addOutputColumns pk sk (sanitizeColumns san row)) "id") = false := by
        simpa using htr
      cases hname : dictGet record "name" with
      | none =>
        simp only [transformRowStep, keptOfRow, invalidOfRow, htr2, hname,
          List.filterMap_cons]
        simp
      | some v =>
        simp only [transformRowStep, keptOfRow, invalidOfRow, htr2, hname,
          List.filterMap_cons]
        simp [List.append_assoc]

theorem transformRecords_activities_eq (san : String → String)
    (pk sk lc ldc : List String) (records : List JObj) :
    transformRecords san "activities" pk sk lc ldc records =
      (records.flatMap (fun record =>
        (handleLists lc ldc (cleanHtml (flattenJson record))).filterMap
          (keptOfRow san pk sk)),
       records.flatMap (fun record =>
        (handleLists lc ldc (cleanHtml (flattenJson record))).filterMap
          (invalidOfRow san pk sk record))) := by
  suffices h : ∀ acc : List JObj × List JValue,
      records.foldl (fun acc record =>
        (handleLists lc ldc (cleanHtml (flattenJson record))).foldl
          (transformRowStep san "activities" pk sk record) acc) acc =
      (acc.1 ++ records.flatMap (fun record =>
        (handleLists lc ldc (cleanHtml (flattenJson record))).filterMap
          (keptOfRow san pk sk)),
       acc.2 ++ records.flatMap (fun record =>
        (handleLists lc ldc (cleanHtml (flattenJson record))).filterMap
          (invalidOfRow san pk sk record))) by
    have := h ([], [])
    simpa [transformRecords] using this
  induction records with
  | nil => intro acc; simp
  | cons r rest ih =>
    intro acc
    rw [List.foldl_cons, foldl_transformRowStep, ih]
    simp [List.append_assoc]

/-- Claim C7, amended: on the activities endpoint every pipeline row whose
final id value is falsy is dropped from the output; for each dropped row
the raw record value under the name key is appended to the invalid list
exactly when the raw record contains a name field (a record lacking the
name field is dropped without being recorded); per-record processing is a
flatMap, so an invalid record never aborts the processing of the
remaining records. -/
theorem c7_invalid_activities_amended (san : String → String)
    (pk sk lc ldc : List String) (records : List JObj) (record row : JObj)
    (hfalsy : jtruthy (jgetD
      (addOutputColumns pk sk (sanitizeColumns san row)) "id") = false) :
    (transformRecords san "activities" pk sk lc ldc records =
      (records.flatMap (fun r =>
        (handleLists lc ldc (cleanHtml (flattenJson r))).filterMap
          (keptOfRow san pk sk)),
       records.flatMap (fun r =>
        (handleLists lc ldc (cleanHtml (flattenJson r))).filterMap
          (invalidOfRow san pk sk r))))
    ∧ keptOfRow san pk sk row = none
    ∧ invalidOfRow san pk sk record row = dictGet record "name" := by
  refine ⟨transformRecords_activities_eq san pk sk lc ldc records, ?_, ?_⟩
  · simp [keptOfRow, hfalsy]
  · simp [invalidOfRow, hfalsy]

/-- Counterexample to C7 as stated: an activities record lacking the name
key whose synthesized id is empty (falsy) is dropped from the output, yet
nothing is recorded in the invalid-identifier list. -/
theorem c7_invalid_activities_counterexample :
    transformRecords (fun s => s) "activities" ["name"] [] [] []
      [[("title", JValue.num 5)]] = ([], [])
    ∧ jgetD (addOutputColumns ["name"] []
        (sanitizeColumns (fun s => s) [("title", JValue.num 5)])) "id" =
      JValue.str "" := by
  constructor
  · have hflat : flattenJson [("title", JValue.num 5)] =
        [("title", JValue.num 5)] := by
      simp [flattenJson, flattenInto, dictInsert]
    rw [transformRecords_activities_eq]
    simp [hflat, handleLists, cleanHtml, cleanHtmlValue, keptOfRow,
      invalidOfRow, addOutputColumns, sanitizeColumns, idParts, dictGet,
      dictInsert, dictUpdate, jgetD, jtruthy, joinWith]
  · rfl

/-- Witness for C7 amended: a row with a falsy id is dropped, and the raw
record with a name field gets its name value recorded. -/
theorem c7_invalid_activities_amended_witness :
    keptOfRow (fun s => s) ["name"] [] [("x", JValue.num 0)] = none
    ∧ invalidOfRow (fun s => s) ["name"] [] [("name", JValue.str "A")]
        [("x", JValue.num 0)] = some (JValue.str "A") := by
  have h := c7_invalid_activities_amended (fun s => s) ["name"] [] [] [] []
    [("name", JValue.str "A")] [("x", JValue.num 0)] rfl
  exact ⟨h.2.1, h.2.2.trans rfl⟩

/-- Claim C8: the dependent-table loop over normalized parent ids equals a
flatMap of per-identifier results in which a failing fetch contributes
nothing, and a fetch failure at the head identifier leaves the loop equal
to the loop over the remaining identifiers, so a per-identifier failure
skips only that identifier and every remaining identifier is still
processed (the loop is total and never aborts). -/
theorem c8_dependent_skip (fetch : String → Except String (List JObj))
    (transform : List JObj → List JObj) (parentIds : List String)
    (pid e : String) (rest : List String)
    (herr : fetch pid = Except.error e) :
    (dependentFetchLoop fetch transform parentIds =
      parentIds.flatMap (fun p =>
        match fetch p with
        | Except.ok records =>
          if records.isEmpty then [] else transform records
        | Except.error _ => []))
    ∧ dependentFetchLoop fetch transform (pid :: rest) =
        dependentFetchLoop fetch transform rest := by
  constructor
  · induction parentIds with
    | nil => rfl
    | cons p rest2 ih =>
      rw [List.flatMap_cons, ← ih]
      cases hf : fetch p <;> simp [dependentFetchLoop, hf]
  · simp [dependentFetchLoop, herr]

theorem firstIdx_append_left (e : ExtractEvent) (l1 l2 : List ExtractEvent)
    (h : e ∈ l1) : firstIdx e (l1 ++ l2) = firstIdx e l1 := by
  induction l1 with
  | nil => simp at h
  | cons x rest ih =>
    by_cases hx : x = e
    · simp [firstIdx, hx]
    · rcases List.mem_cons.mp h with h1 | h1
      · exact absurd h1.symm hx
      · simp [firstIdx, hx, ih h1]

theorem firstIdx_append_right (e : ExtractEvent) (l1 l2 : List ExtractEvent)
    (h : e ∉ l1) : firstIdx e (l1 ++ l2) = l1.length + firstIdx e l2 := by
  induction l1 with
  | nil => simp [firstIdx]
  | cons x rest ih =>
    have hx : x ≠ e := fun hh => h (hh ▸ List.mem_cons_self x rest)
    have hrest : e ∉ rest := fun hh => h (List.mem_cons_of_mem x hh)
    simp [firstIdx, hx, ih hrest]
    omega

theorem firstIdx_lt_length (e : ExtractEvent) (l : List ExtractEvent)
    (h : e ∈ l) : firstIdx e l < l.length := by
  induction l with
  | nil => simp at h
  | cons x rest ih =>
    by_cases hx : x = e
    · simp [firstIdx, hx]
    · rcases List.mem_cons.mp h with h1 | h1
      · exact absurd h1.symm hx
      · simp [firstIdx, hx]
        exact ih h1

/-- Claim C9, amended: extraction is partitioned into two sequential
batches, the non-dependent tables (which include the identity-source
endpoint activities) first and the dependent tables second; the completion
of every non-dependent table precedes the start of every dependent table
in the trace, so dependent resolution observes the complete output of the
first batch and the complete invalid-identifier set computed while
extracting activities. -/
theorem c9_phase_order_amended (configs : List (String × Option String))
    (tables : List String) (td tu : String)
    (hmemd : td ∈ tables) (hmemu : tu ∈ tables)
    (hd : isDependentTable configs td = true)
    (hu : isDependentTable configs tu = false) :
    ExtractEvent.complete tu ∈ extractAllTrace configs tables
    ∧ ExtractEvent.start td ∈ extractAllTrace configs tables
    ∧ firstIdx (ExtractEvent.complete tu) (extractAllTrace configs tables) <
      firstIdx (ExtractEvent.start td) (extractAllTrace configs tables) := by
  have hmemu2 : tu ∈ tables.filter (fun t => !isDependentTable configs t) :=
    List.mem_filter.mpr ⟨hmemu, by simp [hu]⟩
  have hmemd2 : td ∈ tables.filter (fun t => isDependentTable configs t) :=
    List.mem_filter.mpr ⟨hmemd, hd⟩
  have hcu : ExtractEvent.complete tu ∈
      batchTrace (tables.filter (fun t => !isDependentTable configs t)) :=
    List.mem_append_right _ (List.mem_map_of_mem ExtractEvent.complete hmemu2)
  have hsd : ExtractEvent.start td ∈
      batchTrace (tables.filter (fun t => isDependentTable configs t)) :=
    List.mem_append_left _ (List.mem_map_of_mem ExtractEvent.start hmemd2)
  have hnsd : ExtractEvent.start td ∉
      batchTrace (tables.filter (fun t => !isDependentTable configs t)) := by
    intro hmem
    rcases List.mem_append.mp hmem with h1 | h1
    · obtain ⟨x, hx1, hx2⟩ := List.mem_map.mp h1
      have : x = td := by
        injection hx2
      subst this
      have := (List.mem_filter.mp hx1).2
      rw [hd] at this
      simp at this
    · obtain ⟨x, hx1, hx2⟩ := List.mem_map.mp h1
      exact ExtractEvent.noConfusion hx2
  refine ⟨List.mem_append_left _ hcu, List.mem_append_right _ hsd, ?_⟩
  unfold extractAllTrace
  rw [firstIdx_append_left _ _ _ hcu, firstIdx_append_right _ _ _ hnsd]
  have h1 := firstIdx_lt_length _ _ hcu
  omega

/-- Counterexample to C9 as stated: the claim places the identity-source
endpoint activities in phase 2 and asserts phase 2 starts only after every
phase-1 task finishes. In the code activities carries no parent_table, so
it is scheduled in the first gather batch: with tables users and
activities, the start of activities (index 1) precedes the completion of
the phase-1 endpoint users (index 2) in the trace. -/
theorem c9_phase_order_counterexample :
    (isDependentTable [("users", (none : Option String)),
      ("activities", none)] "users" = false)
    ∧ (isDependentTable [("users", (none : Option String)),
      ("activities", none)] "activities" = false)
    ∧ ExtractEvent.start "activities" ∈
        extractAllTrace [("users", (none : Option String)),
          ("activities", none)] ["users", "activities"]
    ∧ ExtractEvent.complete "users" ∈
        extractAllTrace [("users", (none : Option String)),
          ("activities", none)] ["users", "activities"]
    ∧ firstIdx (ExtractEvent.start "activities")
        (extractAllTrace [("users", (none : Option String)),
          ("activities", none)] ["users", "activities"]) <
      firstIdx (ExtractEvent.complete "users")
        (extractAllTrace [("users", (none : Option String)),
          ("activities", none)] ["users", "activities"]) := by
  refine ⟨rfl, rfl, ?_, ?_, ?_⟩ <;> decide

/-- A fetch that fails for the first parent id and succeeds otherwise. -/
def failingThenOkFetch : String → Except String (List JObj) :=
  fun pid => if pid = "p1" then Except.error "boom"
    else Except.ok [[("a", JValue.num 1)]]

/-- Witness for C8: the failing first identifier is skipped and the second
one still contributes its transformed records. -/
theorem c8_dependent_skip_witness :
    dependentFetchLoop failingThenOkFetch (fun rs => rs) ["p1", "p2"] =
      [[("a", JValue.num 1)]] := by
  have h := c8_dependent_skip failingThenOkFetch (fun rs => rs) ["p1", "p2"]
    "p1" "boom" ["p2"] rfl
  rw [h.2]
  rfl

/-- Witness for C9 amended: with activities independent and comments
dependent on it, activities completes before comments starts. -/
theorem c9_phase_order_amended_witness :
    ExtractEvent.complete "activities" ∈
      extractAllTrace [("activities", (none : Option String)),
        ("comments", some "activities")] ["activities", "comments"]
    ∧ ExtractEvent.start "comments" ∈
      extractAllTrace [("activities", (none : Option String)),
        ("comments", some "activities")] ["activities", "comments"]
    ∧ firstIdx (ExtractEvent.complete "activities")
        (extractAllTrace [("activities", (none : Option String)),
          ("comments", some "activities")] ["activities", "comments"]) <
      firstIdx (ExtractEvent.start "comments")
        (extractAllTrace [("activities", (none : Option String)),
          ("comments", some "activities")] ["activities", "comments"]) :=
  c9_phase_order_amended
    [("activities", (none : Option String)), ("comments", some "activities")]
    ["activities", "comments"] "comments" "activities"
    (by decide) (by decide) rfl rfl
